import Mathlib

/-!
Verification development for the call-session workflow, the persisted
collections, and the history listing of the Academy Dialer application
(`src/App.tsx`).

The `CallCenterSection` component is embedded as an explicit event system:
its React state (`callStatus`, `duration`, `finishReason`), its refs
(`timerRef`, `callEndTimerRef`, `mediaRecorderRef`, `audioChunksRef`,
`audioStreamRef`) and the call-history list become fields of `SessionState`;
each browser event (a button click, a timeout firing, an interval tick)
becomes one `Ev` and `step` performs the corresponding handler body.

Modelling notes, each traceable to the source:
* The 3-second dial `setTimeout` scheduled in `handleCallStart`
  (App.tsx:1190-1229) is not stored in any ref, so nothing can clear it;
  the pending timeouts live in `pendingDials`, oldest first (they all
  share the 3000 ms delay, so they fire in scheduling order), and only
  the `dialFire` event consumes one.
* The end-of-call timeout stored in `callEndTimerRef` (App.tsx:1201,1204)
  invokes the `handleCallEnd` closure created in the same render as the
  `handleCallStart` click.  That closure reads the `duration` state value
  of that render, not the current one; the value is captured into the
  pending-timeout entries (`pendingDials`, `callEndTimer`,
  `orphanEndTimers`) and handed to `handleCallEnd` when they fire.  The
  operator button (App.tsx:1356) always invokes the closure of the
  latest render, which sees the current `duration`.
* Starting a new call overwrites `audioStreamRef`/`mediaRecorderRef`
  (App.tsx:1176-1178): the previous session's stream and recorder
  survive, reachable only through the closure of that session's pending
  dial timeout; they are kept in `orphans`, indexed by session.  For the
  same reason `startTimer` and a connected resolution overwrite
  `timerRef`/`callEndTimerRef` without clearing them; the overwritten
  handles are tracked in `orphanTickers`/`orphanEndTimers`, which no
  handler can reach.
* `MediaRecorder.start()` (App.tsx:1193) throws a `NotSupportedError`
  when every track of its stream has been stopped (the stream is then
  inactive), so the remainder of the connected branch does not execute;
  this is the `streamActive` guard in `dialFires`.
* `audioChunksRef` receives one chunk from `ondataavailable` when the
  recorder is stopped; chunks of size 0 are filtered out (App.tsx:1182).
  Chunks are modelled by their sizes.  `blobToBase64` of the assembled
  blob always resolves with a data-URL string, also for an empty blob.
* `CallRecord.id` and `timestamp` are produced outside the component
  (`addCallToHistory`, App.tsx:851-853) and are modelled separately in
  the directory model below; session records carry the fields the
  component itself supplies.
-/

namespace AcademyDialer

set_option maxRecDepth 8192

inductive CallStatus
  | idle
  | dialing
  | active
  | finished
deriving DecidableEq, Repr

/-- The state of the `MediaRecorder` object: `recording` between
`start()` and `stop()`, `inactive` otherwise. -/
inductive RecState
  | inactive
  | recording
deriving DecidableEq, Repr

/-- Which end-of-call timeout `handleCallStart` scheduled at connect time:
a simulated dropped call (App.tsx:1201) or the student hanging up first
(App.tsx:1204). -/
inductive EndKind
  | dropped
  | studentEnded
deriving DecidableEq, Repr

/-- The fields of a history entry that `CallCenterSection` supplies to
`addCallToHistory` (the `id` and `timestamp` are added elsewhere). -/
structure SessionRecord where
  studentName : String
  status : String
  duration : Nat
  teacherName : String
  recordingUrl : Option String
deriving DecidableEq, Repr

/-- `blobToBase64` (App.tsx:83-90) applied to the blob assembled from the
captured chunks: a `FileReader` data URL, which is a string also when the
blob is empty. -/
def blobToBase64 (chunks : List Nat) : String :=
  "data:audio/webm;codecs=opus;base64," ++ toString (chunks.foldl (fun a b => a + b) 0)

/-- `formatDuration` (App.tsx:92-97) on a natural number of seconds. -/
def pad2 (n : Nat) : String :=
  if n < 10 then "0" ++ toString n else toString n

def formatDuration (seconds : Nat) : String :=
  pad2 (seconds / 60) ++ ":" ++ pad2 (seconds % 60)

/-- The stream-liveness flag and recorder state of one session's
`getUserMedia` stream and `MediaRecorder` pair. -/
structure Resource where
  streamActive : Bool
  recState : RecState
deriving DecidableEq, Repr

/-- The state of one `CallCenterSection` mount: React state, refs, the
surviving objects of earlier sessions, and the history/toast lists
reached through `addCallToHistory`/`addToast`. -/
structure SessionState where
  callStatus : CallStatus
  duration : Nat
  finishReason : String
  /-- The 1-second interval `timerRef.current` points to is installed. -/
  timerRunning : Bool
  /-- Intervals whose handle in `timerRef` was overwritten by a later
  `startTimer`: `clearInterval` can no longer reach them. -/
  orphanTickers : Nat
  /-- `callEndTimerRef.current`: the pending end-of-call timeout, with
  the `duration` value its `handleCallEnd` closure captured. -/
  callEndTimer : Option (EndKind × Nat)
  /-- End-of-call timeouts whose handle in `callEndTimerRef` was
  overwritten by a later connected resolution: unclearable, still fire. -/
  orphanEndTimers : List (EndKind × Nat)
  /-- The 3-second dial timeouts still pending, oldest first.  Each
  carries the index of the session whose `stream`/`recorder` consts its
  closure holds, and the `duration` value of its render.  They are
  stored in no ref, so no handler can clear them. -/
  pendingDials : List (Nat × Nat)
  /-- Number of sessions started so far; the refs point to the last. -/
  sessionCount : Nat
  /-- `audioStreamRef.current ≠ null`. -/
  haveStream : Bool
  /-- The stream the refs point to (the latest session's) has a live
  track. -/
  streamActive : Bool
  /-- The recorder the refs point to. -/
  recState : RecState
  /-- Streams and recorders of the earlier sessions `0 ..
  sessionCount - 2`: the refs no longer reach them, but the pending dial
  closure of their session does. -/
  orphans : List Resource
  /-- `audioChunksRef.current`, as chunk sizes. -/
  chunks : List Nat
  history : List SessionRecord
  toasts : List (String × String)
deriving DecidableEq, Repr

/-- Whether some dial timeout is still pending. -/
def SessionState.dialPending (s : SessionState) : Bool :=
  !s.pendingDials.isEmpty

/-- The stream/recorder pair the dial-timeout closure of session `i`
manipulates: the ref'd objects when `i` is the latest session, the
orphaned ones otherwise. -/
def getRes (s : SessionState) (i : Nat) : Resource :=
  if i + 1 = s.sessionCount then
    { streamActive := s.streamActive, recState := s.recState }
  else s.orphans.getD i { streamActive := false, recState := RecState.inactive }

def setRes (s : SessionState) (i : Nat) (r : Resource) : SessionState :=
  if i + 1 = s.sessionCount then
    { s with streamActive := r.streamActive, recState := r.recState }
  else { s with orphans := s.orphans.set i r }

def micErrToast : String × String :=
  ("Microphone access is required. Please allow permission.", "error")

/-- `stopTimer` (App.tsx:1164-1169). -/
def stopTimer (s : SessionState) : SessionState :=
  { s with timerRunning := false }

/-- `handleCallStart` (App.tsx:1171-1235) up to the point where the dial
timeout is scheduled; `micOk` tells whether `getUserMedia` succeeded.
On failure the `catch` branch shows a toast and resets the status. -/
def handleCallStart (micOk : Bool) (s : SessionState) : SessionState :=
  if micOk then
    { s with
        orphans := s.orphans ++
          (if s.haveStream then
            [{ streamActive := s.streamActive, recState := s.recState }]
          else [])
        haveStream := true
        streamActive := true
        recState := RecState.inactive
        chunks := []
        callStatus := CallStatus.dialing
        duration := 0
        pendingDials := s.pendingDials ++ [(s.sessionCount, s.duration)]
        sessionCount := s.sessionCount + 1 }
  else
    { s with
        toasts := s.toasts ++ [micErrToast]
        callStatus := CallStatus.idle }

/-- `handleCallEnd` (App.tsx:1237-1294) together with the `onstop` →
`processRecording` continuation it installs when the recorder is
recording.  `durationSeen` is the `duration` value of the closure that
runs (current render for the operator button, start render for the
scheduled timeout); `recData` is the size of the blob `ondataavailable`
delivers when the recorder is stopped. -/
def handleCallEnd (user student : String) (canceled dropped studentEnded : Bool)
    (durationSeen : Nat) (recData : Nat) (s : SessionState) : SessionState :=
  let s1 := stopTimer s
  let s2 := { s1 with callEndTimer := none }
  let s3 := if s2.haveStream then { s2 with streamActive := false } else s2
  if s3.recState = RecState.recording then
    let chunks := s3.chunks ++ (if recData > 0 then [recData] else [])
    let status := if dropped then "Failed (Dropped)" else "Completed"
    let newRec : SessionRecord :=
      { studentName := student
        status := status
        duration := durationSeen
        teacherName := user
        recordingUrl := some (blobToBase64 chunks) }
    let reason :=
      if dropped then "Call with " ++ student ++ " was dropped."
      else if studentEnded then "The student has ended the call."
      else "The call with " ++ student ++ " has ended."
    let toast :=
      if dropped then
        ("Call with " ++ student ++ " dropped. Partial recording saved.", "error")
      else if studentEnded then
        ("Call with " ++ student ++ " ended. Duration: " ++ formatDuration durationSeen ++ ".",
          "success")
      else
        ("Call with " ++ student ++ " completed. Duration: " ++ formatDuration durationSeen ++ ".",
          "success")
    { s3 with
        recState := RecState.inactive
        chunks := chunks
        history := newRec :: s3.history
        finishReason := reason
        toasts := s3.toasts ++ [toast]
        callStatus := CallStatus.finished }
  else
    if canceled then
      { s3 with
          history :=
            { studentName := student
              status := "Canceled"
              duration := 0
              teacherName := user
              recordingUrl := none } :: s3.history
          finishReason := "Call to " ++ student ++ " was canceled."
          toasts := s3.toasts ++ [("Call to " ++ student ++ " was canceled.", "info")]
          callStatus := CallStatus.finished }
    else
      { s3 with callStatus := CallStatus.finished }

/-- The resolution the simulated bridge picks inside the dial timeout
(App.tsx:1191-1228): connected (with the end-of-call scenario chosen at
App.tsx:1198-1206, `none` when the call waits for the operator), busy,
or no answer. -/
inductive DialOutcome
  | connected (plan : Option EndKind)
  | busy
  | noAnswer
deriving DecidableEq, Repr

/-- The body of the 3-second dial timeout (App.tsx:1190-1229), firing the
oldest pending timeout.  The closure acts on its own session's `stream`
and `recorder` consts (current or orphaned) but on the shared component
state and refs.  In the connected branch `recorder.start()` throws when
that session's stream has been made inactive (every track stopped),
aborting the rest of the callback; a successful start overwrites
`timerRef` and — when an end scenario was drawn — `callEndTimerRef`,
orphaning whatever handles they held. -/
def dialFires (user student : String) (outcome : DialOutcome) (s : SessionState) : SessionState :=
  match s.pendingDials with
  | [] => s
  | (i, closDur) :: rest =>
    let s1 := { s with pendingDials := rest }
    match outcome with
    | DialOutcome.connected plan =>
        let r := getRes s1 i
        if r.streamActive = true ∧ r.recState = RecState.inactive then
          let s2 := setRes s1 i { streamActive := r.streamActive, recState := RecState.recording }
          { s2 with
              callStatus := CallStatus.active
              timerRunning := true
              orphanTickers := s2.orphanTickers + (if s2.timerRunning then 1 else 0)
              callEndTimer :=
                match plan with
                | some k => some (k, closDur)
                | none => s2.callEndTimer
              orphanEndTimers :=
                s2.orphanEndTimers ++
                  (match plan, s2.callEndTimer with
                    | some _, some t => [t]
                    | _, _ => []) }
        else s1
    | DialOutcome.busy =>
        let r := getRes s1 i
        let s2 := setRes s1 i { streamActive := false, recState := r.recState }
        { s2 with
            callStatus := CallStatus.finished
            finishReason := "Call to " ++ student ++ " failed: Line was busy."
            history :=
              { studentName := student
                status := "Failed (Busy)"
                duration := 0
                teacherName := user
                recordingUrl := none } :: s2.history
            toasts := s2.toasts ++ [("Call to " ++ student ++ " failed (Line busy).", "error")] }
    | DialOutcome.noAnswer =>
        let r := getRes s1 i
        let s2 := setRes s1 i { streamActive := false, recState := r.recState }
        { s2 with
            callStatus := CallStatus.finished
            finishReason := "Call to " ++ student ++ " failed: No answer."
            history :=
              { studentName := student
                status := "Failed (No Answer)"
                duration := 0
                teacherName := user
                recordingUrl := none } :: s2.history
            toasts := s2.toasts ++ [("Call to " ++ student ++ " failed (no answer).", "error")] }

/-- `reset` (App.tsx:1296-1303). -/
def resetSession (s : SessionState) : SessionState :=
  { stopTimer s with
      callStatus := CallStatus.idle
      duration := 0
      finishReason := "" }

/-- The events that can hit the component: the call button (rendered
only while idle), the oldest pending dial timeout firing, an interval
tick, the red end/cancel button (rendered while dialing or active, with
`canceled := callStatus === dialing`, App.tsx:1356), the end-of-call
timeout held by `callEndTimerRef` firing, an orphaned end-of-call
timeout firing, and the reset button of the summary screen. -/
inductive Ev
  | callStart (micOk : Bool)
  | dialFire (outcome : DialOutcome)
  | tick
  | endClick (recData : Nat)
  | schedEnd (recData : Nat)
  | orphanEndFire (idx : Nat) (recData : Nat)
  | resetClick
deriving DecidableEq, Repr

/-- One event hitting the component.  Events whose trigger does not
exist in the given state (a button not rendered, a timer not pending)
leave the state unchanged.  The call button is rendered whenever
`callStatus` is `idle` (App.tsx:1350); `handleCallStart` itself checks
only that a student is selected, which holds throughout (the model runs
with a fixed selected student), so a restart is possible while timeouts
of earlier sessions are still pending. -/
def step (user student : String) (s : SessionState) : Ev → SessionState
  | Ev.callStart micOk =>
      if s.callStatus = CallStatus.idle then handleCallStart micOk s else s
  | Ev.dialFire outcome => dialFires user student outcome s
  | Ev.tick =>
      if s.timerRunning = true ∨ 0 < s.orphanTickers then
        { s with duration := s.duration + 1 }
      else s
  | Ev.endClick recData =>
      if s.callStatus = CallStatus.dialing ∨ s.callStatus = CallStatus.active then
        handleCallEnd user student (decide (s.callStatus = CallStatus.dialing)) false false
          s.duration recData s
      else s
  | Ev.schedEnd recData =>
      match s.callEndTimer with
      | some (EndKind.dropped, dur) =>
          handleCallEnd user student false true false dur recData s
      | some (EndKind.studentEnded, dur) =>
          handleCallEnd user student false false true dur recData s
      | none => s
  | Ev.orphanEndFire idx recData =>
      match s.orphanEndTimers.get? idx with
      | some (EndKind.dropped, dur) =>
          handleCallEnd user student false true false dur recData
            { s with orphanEndTimers := s.orphanEndTimers.eraseIdx idx }
      | some (EndKind.studentEnded, dur) =>
          handleCallEnd user student false false true dur recData
            { s with orphanEndTimers := s.orphanEndTimers.eraseIdx idx }
      | none => s
  | Ev.resetClick =>
      if s.callStatus = CallStatus.finished then resetSession s else s

/-- The state of a freshly mounted `CallCenterSection`. -/
def init : SessionState :=
  { callStatus := CallStatus.idle
    duration := 0
    finishReason := ""
    timerRunning := false
    orphanTickers := 0
    callEndTimer := none
    orphanEndTimers := []
    pendingDials := []
    sessionCount := 0
    haveStream := false
    streamActive := false
    recState := RecState.inactive
    orphans := []
    chunks := []
    history := []
    toasts := [] }

def run (user student : String) (s : SessionState) : List Ev → SessionState
  | [] => s
  | e :: es => run user student (step user student s e) es

/-- Operator cancels while dialing, then the unstoppable dial timeout
fires with the busy outcome. -/
def cancelBusyTrace : List Ev :=
  [Ev.callStart true, Ev.endClick 0, Ev.dialFire DialOutcome.busy]

/-- The remote party hangs up after 45 ticks: connect, 45 ticks, then the
scheduled student-hangup timeout fires. -/
def remoteHangup45Trace : List Ev :=
  ([Ev.callStart true, Ev.dialFire (DialOutcome.connected (some EndKind.studentEnded))] ++
    List.replicate 45 Ev.tick) ++ [Ev.schedEnd 9]

/-- A connected call the operator hangs up before any audio data was
captured: the recorder delivers a blob of size 0, which the
`ondataavailable` handler discards, so the chunk list stays empty. -/
def emptyCaptureTrace : List Ev :=
  [Ev.callStart true, Ev.dialFire (DialOutcome.connected none), Ev.endClick 0]

/-- A first call is canceled during `dialing`; the operator starts a
second call inside the first call's 3-second dial window; the first
(unstoppable) dial timeout resolves busy, stops only its own session's
already-stopped stream and finishes the state while the second session's
stream is live; after a reset and a third start, the second session's
dial timeout resolves connected and starts the second session's
recorder, which no ref can reach any more; the operator then ends the
visible call, stopping only the third session's resources. -/
def staleDialLeakTrace : List Ev :=
  [Ev.callStart true, Ev.endClick 0, Ev.resetClick, Ev.callStart true,
   Ev.dialFire DialOutcome.busy, Ev.resetClick, Ev.callStart true,
   Ev.dialFire (DialOutcome.connected (some EndKind.studentEnded)), Ev.endClick 0]

/-- Classification of every record the session system ever appends: a
dial-phase record (busy, no answer, canceled) with duration 0 and no
recording URL, or a connected-phase record (completed or dropped) whose
recording URL is always a data-URL string. -/
def GoodRec (r : SessionRecord) : Prop :=
  (r.duration = 0 ∧ r.recordingUrl = none ∧
    (r.status = "Failed (Busy)" ∨ r.status = "Failed (No Answer)" ∨ r.status = "Canceled")) ∨
  ((r.status = "Completed" ∨ r.status = "Failed (Dropped)") ∧
    ∃ u2, r.recordingUrl = some u2)

/-- The history after `handleCallEnd`, in closed form: the recording
branch prepends the completed/dropped record, the canceled branch
prepends the `Canceled` record, and otherwise the history is untouched. -/
-- Directory model: the three persisted collections and their create
-- operations (`handleSaveStudent` add branch App.tsx:1026-1032,
-- `handleAddTeacher` App.tsx:1380-1399, `addCallToHistory`
-- App.tsx:851-853); each new record takes `id := Date.now()`, passed
-- here as the explicit `now` argument.

structure StudentR where
  id : Nat
  name : String
deriving DecidableEq, Repr

structure TeacherR where
  id : Nat
  name : String
deriving DecidableEq, Repr

structure CallR where
  id : Nat
  studentName : String
deriving DecidableEq, Repr

structure DirState where
  students : List StudentR
  teachers : List TeacherR
  callHistory : List CallR
deriving DecidableEq, Repr

def emptyDir : DirState := { students := [], teachers := [], callHistory := [] }

def handleSaveStudentAdd (now : Nat) (name : String) (d : DirState) : DirState :=
  { d with students := d.students ++ [{ id := now, name := name }] }

def dropWs : List Char → List Char
  | [] => []
  | c :: cs => if c.isWhitespace then dropWs cs else c :: cs

/-- JS `name.trim()` over the character list (the Lean library `String.trim`
computes the same string through `Substring` code that the kernel cannot
reduce, so the claims below could not be evaluated with it). -/
def jsTrim (s : String) : String :=
  String.mk ((dropWs ((dropWs s.data).reverse)).reverse)

def handleAddTeacher (now : Nat) (name : String) (d : DirState) : DirState :=
  if jsTrim name ≠ "" then
    { d with teachers := d.teachers ++ [{ id := now, name := jsTrim name }] }
  else d

def addCallToHistory (now : Nat) (studentName : String) (d : DirState) : DirState :=
  { d with callHistory := { id := now, studentName := studentName } :: d.callHistory }

inductive DirOp
  | addStudent (now : Nat) (name : String)
  | addTeacher (now : Nat) (name : String)
  | addCall (now : Nat) (studentName : String)
deriving DecidableEq, Repr

def dirOpNow : DirOp → Nat
  | DirOp.addStudent now _ => now
  | DirOp.addTeacher now _ => now
  | DirOp.addCall now _ => now

def applyDirOp (d : DirState) : DirOp → DirState
  | DirOp.addStudent now name => handleSaveStudentAdd now name d
  | DirOp.addTeacher now name => handleAddTeacher now name d
  | DirOp.addCall now name => addCallToHistory now name d

def runDirOps (d : DirState) : List DirOp → DirState
  | [] => d
  | op :: ops => runDirOps (applyDirOp d op) ops

def idsUnique (d : DirState) : Prop :=
  (d.students.map StudentR.id).Nodup ∧ (d.teachers.map TeacherR.id).Nodup ∧
    (d.callHistory.map CallR.id).Nodup

/-- Every id in every collection is below `m`. -/
def IdsBelow (d : DirState) (m : Nat) : Prop :=
  (∀ r ∈ d.students, r.id < m) ∧ (∀ r ∈ d.teachers, r.id < m) ∧
    (∀ r ∈ d.callHistory, r.id < m)

/-- The logged-in user as `HistorySection` sees it: `type` is `admin` or
`staff`, `name` is the display name snapshotted into records. -/
structure UserT where
  type : String
  name : String
deriving DecidableEq, Repr

def hasPrefixCh : List Char → List Char → Bool
  | [], _ => true
  | _ :: _, [] => false
  | a :: as, b :: bs => a == b && hasPrefixCh as bs

def containsCh (needle : List Char) : List Char → Bool
  | [] => hasPrefixCh needle []
  | b :: bs => hasPrefixCh needle (b :: bs) || containsCh needle bs

/-- JS `hay.includes(needle)`. -/
def jsIncludes (hay needle : String) : Bool :=
  containsCh needle.toList hay.toList

/-- JS `s.toLowerCase()` over the character list (the library
`String.toLower` computes the same string through `String.mapAux`, which
the kernel cannot reduce, so concrete instances could not be checked). -/
def jsToLower (s : String) : String :=
  String.mk (s.data.map Char.toLower)

/-- `filteredHistory` (App.tsx:438-442). -/
def filteredHistory (user : UserT) (searchTerm : String)
    (callHistory : List SessionRecord) : List SessionRecord :=
  callHistory.filter (fun c =>
    (user.type == "admin" || c.teacherName == user.name) &&
    (jsIncludes (jsToLower c.studentName) (jsToLower searchTerm) ||
      (user.type == "admin" && jsIncludes (jsToLower c.teacherName) (jsToLower searchTerm))))

def demoHist : List SessionRecord :=
  [{ studentName := "Omar", status := "Completed", duration := 10,
     teacherName := "Ali Hassan", recordingUrl := none },
   { studentName := "Zainab", status := "Canceled", duration := 0,
     teacherName := "Fatima Zahra", recordingUrl := none }]

-- Theorems ------------------------------------------------------------

theorem handleCallEnd_history_eq (u st : String) (c d se : Bool) (dur rd : Nat)
    (s : SessionState) :
    (handleCallEnd u st c d se dur rd s).history =
      if s.recState = RecState.recording then
        { studentName := st, status := if d then "Failed (Dropped)" else "Completed",
          duration := dur, teacherName := u,
          recordingUrl :=
            some (blobToBase64 (s.chunks ++ (if rd > 0 then [rd] else []))) } :: s.history
      else if c then
        { studentName := st, status := "Canceled", duration := 0, teacherName := u,
          recordingUrl := none } :: s.history
      else s.history := by
  unfold handleCallEnd stopTimer
  by_cases hs : s.haveStream = true <;> by_cases hr : s.recState = RecState.recording <;>
    by_cases hc : c = true <;> simp [hs, hr, hc]

theorem handleCallEnd_history (u st : String) (c d se : Bool) (dur rd : Nat)
    (s : SessionState) :
    (handleCallEnd u st c d se dur rd s).history = s.history ∨
    ∃ r, (handleCallEnd u st c d se dur rd s).history = r :: s.history ∧ GoodRec r := by
  rw [handleCallEnd_history_eq]
  by_cases hr : s.recState = RecState.recording
  · rw [if_pos hr]
    refine Or.inr ⟨_, rfl, Or.inr ⟨?_, _, rfl⟩⟩
    cases d
    · exact Or.inl rfl
    · exact Or.inr rfl
  · rw [if_neg hr]
    by_cases hc : c = true
    · rw [if_pos hc]
      exact Or.inr ⟨_, rfl, Or.inl ⟨rfl, rfl, Or.inr (Or.inr rfl)⟩⟩
    · rw [if_neg hc]
      exact Or.inl rfl

theorem setRes_history (s : SessionState) (i : Nat) (r : Resource) :
    (setRes s i r).history = s.history := by
  unfold setRes
  split_ifs <;> rfl

theorem step_history_cases (u st : String) (s : SessionState) (e : Ev) :
    (step u st s e).history = s.history ∨
    ∃ r, (step u st s e).history = r :: s.history ∧ GoodRec r := by
  cases e with
  | callStart micOk =>
      simp only [step]
      split_ifs
      · cases micOk <;> exact Or.inl rfl
      · exact Or.inl rfl
  | dialFire outcome =>
      simp only [step]
      unfold dialFires
      cases hpd : s.pendingDials with
      | nil => exact Or.inl rfl
      | cons hd rest =>
          obtain ⟨i, closDur⟩ := hd
          dsimp only
          cases outcome with
          | connected plan =>
              dsimp only
              split_ifs <;>
                first
                  | exact Or.inl rfl
                  | exact Or.inl (by simp [setRes_history])
          | busy =>
              dsimp only
              refine Or.inr
                ⟨{ studentName := st
                   status := "Failed (Busy)"
                   duration := 0
                   teacherName := u
                   recordingUrl := none },
                  ?_, Or.inl ⟨rfl, rfl, Or.inl rfl⟩⟩
              simp [setRes_history]
          | noAnswer =>
              dsimp only
              refine Or.inr
                ⟨{ studentName := st
                   status := "Failed (No Answer)"
                   duration := 0
                   teacherName := u
                   recordingUrl := none },
                  ?_, Or.inl ⟨rfl, rfl, Or.inr (Or.inl rfl)⟩⟩
              simp [setRes_history]
  | tick =>
      simp only [step]
      split_ifs <;> exact Or.inl rfl
  | endClick recData =>
      simp only [step]
      split_ifs
      · exact handleCallEnd_history u st _ false false s.duration recData s
      · exact Or.inl rfl
  | schedEnd recData =>
      simp only [step]
      cases s.callEndTimer with
      | none => exact Or.inl rfl
      | some kd =>
          obtain ⟨k, dur⟩ := kd
          cases k with
          | dropped => exact handleCallEnd_history u st false true false dur recData s
          | studentEnded => exact handleCallEnd_history u st false false true dur recData s
  | orphanEndFire idx recData =>
      simp only [step]
      cases hoe : s.orphanEndTimers.get? idx with
      | none => exact Or.inl rfl
      | some kd =>
          obtain ⟨k, dur⟩ := kd
          cases k with
          | dropped =>
              exact handleCallEnd_history u st false true false dur recData
                { s with orphanEndTimers := s.orphanEndTimers.eraseIdx idx }
          | studentEnded =>
              exact handleCallEnd_history u st false false true dur recData
                { s with orphanEndTimers := s.orphanEndTimers.eraseIdx idx }
  | resetClick =>
      simp only [step]
      split_ifs <;> exact Or.inl rfl

theorem run_histOk (u st : String) (s : SessionState) (tr : List Ev)
    (h : ∀ r ∈ s.history, GoodRec r) :
    ∀ r ∈ (run u st s tr).history, GoodRec r := by
  induction tr generalizing s with
  | nil => exact h
  | cons e es ih =>
      refine ih _ ?_
      rcases step_history_cases u st s e with heq | ⟨r0, heq, hgood⟩
      · intro r hr
        exact h r (heq ▸ hr)
      · intro r hr
        rw [heq] at hr
        rcases List.mem_cons.mp hr with h1 | h2
        · exact h1 ▸ hgood
        · exact h r h2

theorem applyDirOp_below (d : DirState) (op : DirOp) (m : Nat)
    (hd : IdsBelow d m) (hop : dirOpNow op < m) : IdsBelow (applyDirOp d op) m := by
  obtain ⟨h1, h2, h3⟩ := hd
  cases op with
  | addStudent n nm =>
      simp only [dirOpNow] at hop
      refine ⟨?_, h2, h3⟩
      intro r hr
      rcases List.mem_append.mp hr with h | h
      · exact h1 r h
      · rw [List.mem_singleton.mp h]
        exact hop
  | addTeacher n nm =>
      simp only [dirOpNow] at hop
      by_cases h : jsTrim nm ≠ ""
      · simp only [applyDirOp, handleAddTeacher, if_pos h]
        refine ⟨h1, ?_, h3⟩
        intro r hr
        rcases List.mem_append.mp hr with hh | hh
        · exact h2 r hh
        · rw [List.mem_singleton.mp hh]
          exact hop
      · simp only [applyDirOp, handleAddTeacher, if_neg h]
        exact ⟨h1, h2, h3⟩
  | addCall n nm =>
      simp only [dirOpNow] at hop
      refine ⟨h1, h2, ?_⟩
      intro r hr
      rcases List.mem_cons.mp hr with h | h
      · rw [h]
        exact hop
      · exact h3 r h

theorem applyDirOp_unique (d : DirState) (op : DirOp)
    (hu : idsUnique d) (hb : IdsBelow d (dirOpNow op)) :
    idsUnique (applyDirOp d op) := by
  obtain ⟨h1, h2, h3⟩ := hu
  obtain ⟨b1, b2, b3⟩ := hb
  cases op with
  | addStudent n nm =>
      simp only [dirOpNow] at b1 b2 b3
      refine ⟨?_, h2, h3⟩
      show ((d.students ++ [({ id := n, name := nm } : StudentR)]).map StudentR.id).Nodup
      rw [List.map_append]
      refine List.Nodup.append h1 (List.nodup_singleton n) ?_
      intro a ha hain
      rcases List.mem_map.mp ha with ⟨r, hr, hra⟩
      rw [List.map_singleton, List.mem_singleton] at hain
      have h5 := b1 r hr
      rw [hra, hain] at h5
      exact lt_irrefl n h5
  | addTeacher n nm =>
      simp only [dirOpNow] at b1 b2 b3
      by_cases h : jsTrim nm ≠ ""
      · simp only [applyDirOp, handleAddTeacher, if_pos h]
        refine ⟨h1, ?_, h3⟩
        rw [List.map_append]
        refine List.Nodup.append h2 (List.nodup_singleton n) ?_
        intro a ha hain
        rcases List.mem_map.mp ha with ⟨r, hr, hra⟩
        rw [List.map_singleton, List.mem_singleton] at hain
        have h5 := b2 r hr
        rw [hra, hain] at h5
        exact lt_irrefl n h5
      · simp only [applyDirOp, handleAddTeacher, if_neg h]
        exact ⟨h1, h2, h3⟩
  | addCall n nm =>
      simp only [dirOpNow] at b1 b2 b3
      refine ⟨h1, h2, ?_⟩
      show ((({ id := n, studentName := nm } : CallR) :: d.callHistory).map CallR.id).Nodup
      rw [List.map_cons]
      refine List.nodup_cons.mpr ⟨?_, h3⟩
      intro hmem
      have hmem2 : n ∈ d.callHistory.map CallR.id := hmem
      rcases List.mem_map.mp hmem2 with ⟨r, hr, hra⟩
      have h5 := b3 r hr
      rw [hra] at h5
      exact lt_irrefl n h5

theorem runDirOps_unique (ops : List DirOp) (d : DirState)
    (hu : idsUnique d)
    (hb : ∀ n ∈ ops.map dirOpNow, IdsBelow d n)
    (hs : (ops.map dirOpNow).Pairwise (fun a b => a < b)) :
    idsUnique (runDirOps d ops) := by
  induction ops generalizing d with
  | nil => exact hu
  | cons op ops ih =>
      rw [List.map_cons, List.pairwise_cons] at hs
      refine ih (applyDirOp d op) (applyDirOp_unique d op hu (hb _ (by simp))) ?_ hs.2
      intro n hn
      exact applyDirOp_below d op n (hb n (by simp [hn])) (hs.1 n hn)

theorem containsCh_nil_left (l : List Char) : containsCh [] l = true := by
  cases l <;> simp [containsCh, hasPrefixCh]

theorem jsToLower_empty : jsToLower "" = "" := rfl

theorem jsIncludes_empty_needle (hay : String) : jsIncludes hay "" = true := by
  simp [jsIncludes, containsCh_nil_left]

/-- C1.  The code violates the claim: a session that is canceled while
dialing has appended its `Canceled` record, yet the dial timeout — stored
in no ref and therefore never cleared — still fires and its busy branch
appends a second record for the same session, so two records exist by the
time the run ends in `finished`. -/
theorem C1_cancel_then_busy_appends_twice :
    (run "Ali Hassan" "Omar" init cancelBusyTrace).callStatus = CallStatus.finished ∧
    (run "Ali Hassan" "Omar" init cancelBusyTrace).history.length = 2 := by
  decide

/-- C2.  The code violates the claim: after the operator cancels at
`dialing`, the pending dial timeout resolves busy and appends a record
with status `Failed (Busy)` — a non-`Canceled` status — on top of the
`Canceled` record of the same session. -/
theorem C2_record_after_cancel_not_canceled :
    ((run "Ali Hassan" "Omar" init cancelBusyTrace).history.map SessionRecord.status) =
      ["Failed (Busy)", "Canceled"] := by
  decide

/-- C3.  The code violates the claim on the timer-driven termination
path: the scheduled end-of-call timeout invokes the `handleCallEnd`
closure of the render in which the call started, whose `duration` value
is 0, so the appended record is `{status := Completed, duration := 0}`
although 45 ticks elapsed (the session duration counter itself reads 45). -/
theorem C3_remote_hangup_records_stale_duration :
    (run "Ali Hassan" "Omar" init remoteHangup45Trace).duration = 45 ∧
    ((run "Ali Hassan" "Omar" init remoteHangup45Trace).history.map
        (fun r => (r.status, r.duration))) = [("Completed", 0)] := by
  decide

/-- C4.  The code violates the claim: a restart while a stale dial
timeout is pending is reachable (the call button renders whenever the
status is `idle`), and then (1) the stale busy resolution stops only its
own session's stream and sets the status to `finished` while the new
session's stream is still live (first conjunct, after 5 events), and
(2) a later stale connected resolution starts the recorder of a session
the refs no longer reach, so after the operator ends the visible call
that orphaned recorder is recording on a live stream (second conjunct):
the capture resource stays engaged although every session has left
`active`/`dialing`, and nothing can ever stop it. -/
theorem C4_stale_dial_engages_capture_after_exit :
    ((run "Ali Hassan" "Omar" init (staleDialLeakTrace.take 5)).callStatus =
        CallStatus.finished ∧
      (run "Ali Hassan" "Omar" init (staleDialLeakTrace.take 5)).streamActive = true) ∧
    ((run "Ali Hassan" "Omar" init staleDialLeakTrace).callStatus = CallStatus.finished ∧
      (run "Ali Hassan" "Omar" init staleDialLeakTrace).orphans =
        [{ streamActive := false, recState := RecState.inactive },
         { streamActive := true, recState := RecState.recording }]) := by
  decide

/-- C5.  Every record the session system appends has a non-negative
duration, and a record whose status is neither `Completed` nor
`Failed (Dropped)` — that is `Failed (Busy)`, `Failed (No Answer)` or
`Canceled` — has duration exactly 0. -/
theorem C5_nonconnected_records_have_zero_duration (u st : String) (tr : List Ev)
    (r : SessionRecord) (hr : r ∈ (run u st init tr).history) :
    0 ≤ r.duration ∧
      (r.status ≠ "Completed" → r.status ≠ "Failed (Dropped)" → r.duration = 0) := by
  refine ⟨Nat.zero_le _, fun h1 h2 => ?_⟩
  have hg := run_histOk u st init tr (by intro r0 hr0; simp [init] at hr0) r hr
  rcases hg with ⟨hd, _, _⟩ | ⟨hst, _⟩
  · exact hd
  · rcases hst with h | h
    · exact absurd h h1
    · exact absurd h h2

/-- Witness for C5 at the busy record of a concrete run. -/
theorem C5_nonconnected_records_have_zero_duration_witness :
    ({ studentName := "Omar", status := "Failed (Busy)", duration := 0,
       teacherName := "Ali Hassan", recordingUrl := none } : SessionRecord) ∈
        (run "Ali Hassan" "Omar" init [Ev.callStart true, Ev.dialFire DialOutcome.busy]).history ∧
    ({ studentName := "Omar", status := "Failed (Busy)", duration := 0,
       teacherName := "Ali Hassan", recordingUrl := none } : SessionRecord).duration = 0 :=
  ⟨by decide,
    (C5_nonconnected_records_have_zero_duration "Ali Hassan" "Omar"
        [Ev.callStart true, Ev.dialFire DialOutcome.busy] _ (by decide)).2
      (by decide) (by decide)⟩

/-- C6.  If `getUserMedia` fails, the `catch` branch of `handleCallStart`
returns the session to `idle`, appends nothing to the history, and shows
the microphone error toast. -/
theorem C6_mic_failure_idle_no_record (u st : String) (s : SessionState)
    (h1 : s.callStatus = CallStatus.idle) (_h2 : s.dialPending = false)
    (_h3 : s.callEndTimer = none) :
    (step u st s (Ev.callStart false)).callStatus = CallStatus.idle ∧
    (step u st s (Ev.callStart false)).history = s.history ∧
    (step u st s (Ev.callStart false)).toasts = s.toasts ++ [micErrToast] := by
  simp [step, h1, handleCallStart]

theorem C6_mic_failure_idle_no_record_witness :
    init.callStatus = CallStatus.idle ∧
    (step "Ali Hassan" "Omar" init (Ev.callStart false)).callStatus = CallStatus.idle ∧
    (step "Ali Hassan" "Omar" init (Ev.callStart false)).history = init.history ∧
    (step "Ali Hassan" "Omar" init (Ev.callStart false)).toasts = init.toasts ++ [micErrToast] :=
  ⟨rfl, C6_mic_failure_idle_no_record "Ali Hassan" "Omar" init rfl rfl rfl⟩

/-- C7.  Resolving busy for a session dialing "Omar" appends exactly the
record `{studentName := Omar, status := Failed (Busy), duration := 0}`,
moves the session to `finished`, and the recorder is never started on the
path (it is `inactive` after the call starts and after the resolution);
the no-answer resolution behaves the same with `Failed (No Answer)`. -/
theorem C7_busy_and_no_answer_resolution (u : String) :
    (run u "Omar" init [Ev.callStart true, Ev.dialFire DialOutcome.busy]).history =
      [{ studentName := "Omar", status := "Failed (Busy)", duration := 0,
         teacherName := u, recordingUrl := none }] ∧
    (run u "Omar" init [Ev.callStart true, Ev.dialFire DialOutcome.busy]).callStatus =
      CallStatus.finished ∧
    (run u "Omar" init [Ev.callStart true, Ev.dialFire DialOutcome.busy]).recState =
      RecState.inactive ∧
    (run u "Omar" init [Ev.callStart true]).recState = RecState.inactive ∧
    (run u "Omar" init [Ev.callStart true, Ev.dialFire DialOutcome.noAnswer]).history =
      [{ studentName := "Omar", status := "Failed (No Answer)", duration := 0,
         teacherName := u, recordingUrl := none }] ∧
    (run u "Omar" init [Ev.callStart true, Ev.dialFire DialOutcome.noAnswer]).callStatus =
      CallStatus.finished ∧
    (run u "Omar" init [Ev.callStart true, Ev.dialFire DialOutcome.noAnswer]).recState =
      RecState.inactive :=
  ⟨rfl, rfl, rfl, rfl, rfl, rfl, rfl⟩

/-- C8 counterexample.  The claim says a record whose capture produced no
data carries `recordingUrl = null`; in the code `processRecording`
unconditionally encodes the (empty) blob, so the record carries a
non-null data-URL string even though no chunk was captured. -/
theorem C8_empty_capture_url_not_null :
    (run "Ali Hassan" "Omar" init emptyCaptureTrace).chunks = [] ∧
    ((run "Ali Hassan" "Omar" init emptyCaptureTrace).history.map SessionRecord.recordingUrl) =
      [some "data:audio/webm;codecs=opus;base64,0"] := by
  decide

/-- C8 amended.  A record carries `recordingUrl = none` exactly when it
was appended from `dialing` (busy, no answer, canceled); every record
appended on termination from `active` carries `some` data-URL string —
also when the captured data was empty, which is where the original claim
fails. -/
theorem C8_amended_recording_url_iff (u st : String) (tr : List Ev) (r : SessionRecord)
    (hr : r ∈ (run u st init tr).history) :
    r.recordingUrl = none ↔
      (r.status = "Failed (Busy)" ∨ r.status = "Failed (No Answer)" ∨ r.status = "Canceled") := by
  have hg := run_histOk u st init tr (by intro r0 hr0; simp [init] at hr0) r hr
  rcases hg with ⟨_, hurl, hst⟩ | ⟨hst, u2, hurl⟩
  · exact ⟨fun _ => hst, fun _ => hurl⟩
  · constructor
    · intro h
      rw [hurl] at h
      exact absurd h (by simp)
    · intro h
      exfalso
      rcases hst with h1 | h1 <;> rcases h with h2 | h2 | h2 <;>
        (rw [h1] at h2; exact absurd h2 (by decide))

/-- Witness for the amended C8 at the `Canceled` record of a concrete
run. -/
theorem C8_amended_recording_url_iff_witness :
    ({ studentName := "Omar", status := "Canceled", duration := 0,
       teacherName := "Ali Hassan", recordingUrl := none } : SessionRecord) ∈
        (run "Ali Hassan" "Omar" init [Ev.callStart true, Ev.endClick 3]).history ∧
    (({ studentName := "Omar", status := "Canceled", duration := 0,
        teacherName := "Ali Hassan", recordingUrl := none } : SessionRecord).recordingUrl = none ↔
      (({ studentName := "Omar", status := "Canceled", duration := 0,
          teacherName := "Ali Hassan", recordingUrl := none } : SessionRecord).status =
            "Failed (Busy)" ∨
        ({ studentName := "Omar", status := "Canceled", duration := 0,
           teacherName := "Ali Hassan", recordingUrl := none } : SessionRecord).status =
            "Failed (No Answer)" ∨
        ({ studentName := "Omar", status := "Canceled", duration := 0,
           teacherName := "Ali Hassan", recordingUrl := none } : SessionRecord).status =
            "Canceled")) :=
  ⟨by decide,
    C8_amended_recording_url_iff "Ali Hassan" "Omar" [Ev.callStart true, Ev.endClick 3] _
      (by decide)⟩

/-- C9 counterexample.  Ids are `Date.now()` values, so two create
operations in the same millisecond (here: two teachers added at
timestamp 5) produce two records with the same id in one collection,
refuting the claim as stated. -/
theorem C9_same_millisecond_ids_collide :
    ¬ idsUnique (runDirOps emptyDir [DirOp.addTeacher 5 "Ali", DirOp.addTeacher 5 "Sara"]) := by
  unfold idsUnique
  decide

/-- C9 amended.  Each create operation appends exactly one record
(teacher creation requires a non-blank name) whose id is the current
`Date.now()` value, and ids are unique within every collection provided
the creates of the run occur at pairwise strictly increasing
timestamps — same-millisecond creates collide. -/
theorem C9_amended_ids_unique (ops : List DirOp)
    (hs : (ops.map dirOpNow).Pairwise (fun a b => a < b)) :
    idsUnique (runDirOps emptyDir ops) ∧
    (∀ d : DirState, ∀ now : Nat, ∀ nm : String,
      (applyDirOp d (DirOp.addStudent now nm)).students.length = d.students.length + 1 ∧
      (applyDirOp d (DirOp.addCall now nm)).callHistory.length = d.callHistory.length + 1 ∧
      (jsTrim nm ≠ "" →
        (applyDirOp d (DirOp.addTeacher now nm)).teachers.length = d.teachers.length + 1)) := by
  refine ⟨runDirOps_unique ops emptyDir ⟨List.nodup_nil, List.nodup_nil, List.nodup_nil⟩
      (fun n _ => ⟨fun r hr => absurd hr (List.not_mem_nil r),
        fun r hr => absurd hr (List.not_mem_nil r),
        fun r hr => absurd hr (List.not_mem_nil r)⟩) hs, ?_⟩
  intro d now nm
  refine ⟨by simp [applyDirOp, handleSaveStudentAdd],
    by simp [applyDirOp, addCallToHistory], fun h => ?_⟩
  simp [applyDirOp, handleAddTeacher, if_pos h]

/-- Witness for the amended C9 on a concrete strictly increasing
sequence touching all three collections. -/
theorem C9_amended_ids_unique_witness :
    ((([DirOp.addStudent 1 "Yusuf", DirOp.addTeacher 2 "Ali", DirOp.addCall 3 "Yusuf"]).map
        dirOpNow).Pairwise (fun a b => a < b)) ∧
    idsUnique (runDirOps emptyDir
      [DirOp.addStudent 1 "Yusuf", DirOp.addTeacher 2 "Ali", DirOp.addCall 3 "Yusuf"]) :=
  ⟨by decide,
    (C9_amended_ids_unique
        [DirOp.addStudent 1 "Yusuf", DirOp.addTeacher 2 "Ali", DirOp.addCall 3 "Yusuf"]
        (by decide)).1⟩

/-- C10.  For a non-admin user the call-history listing contains only
records whose `teacherName` equals the user name (and all of the user
records that match the student-name search), so a staff user never sees
another teacher record; an admin user with an empty search sees the
records of every teacher. -/
theorem C10_history_visibility (user : UserT) (q : String) (hist : List SessionRecord) :
    (user.type ≠ "admin" →
      (∀ c ∈ filteredHistory user q hist, c.teacherName = user.name) ∧
      (∀ c ∈ hist, c.teacherName = user.name →
        jsIncludes (jsToLower c.studentName) (jsToLower q) = true →
        c ∈ filteredHistory user q hist)) ∧
    (user.type = "admin" → filteredHistory user "" hist = hist) := by
  constructor
  · intro hstaff
    have hadm : (user.type == "admin") = false := by
      simp [hstaff]
    constructor
    · intro c hc
      have := List.mem_filter.mp hc
      rcases this with ⟨_, hcond⟩
      simp [hadm] at hcond
      exact hcond.1
    · intro c hc hteach hsearch
      refine List.mem_filter.mpr ⟨hc, ?_⟩
      simp [hadm, hteach, hsearch]
  · intro hadmin
    have hadm : (user.type == "admin") = true := by
      simp [hadmin]
    refine List.filter_eq_self.mpr ?_
    intro c hc
    simp [hadm, jsToLower_empty, jsIncludes_empty_needle]



/-- Witness for C10 at a concrete staff user, empty search term, and a
history containing records of two different teachers. -/
theorem C10_history_visibility_witness :
    (({ type := "staff", name := "Ali Hassan" } : UserT).type ≠ "admin") ∧
    (∀ c ∈ filteredHistory { type := "staff", name := "Ali Hassan" } "" demoHist,
      c.teacherName = ({ type := "staff", name := "Ali Hassan" } : UserT).name) :=
  ⟨by decide,
    ((C10_history_visibility { type := "staff", name := "Ali Hassan" } "" demoHist).1
        (by decide)).1⟩

end AcademyDialer
